import Mathlib

/-!
Verification of the CMP doctor-registry scraper (`src/main.py`).

The scraper's pure core is embedded shallowly:

* `extract_details` — the Extractor.  A parsed detail document is modelled as
  a list of tables, a table as a list of rows (`tr`), a row as the list of its
  `td` cell texts, each cell string being the value Python's
  `get_text(strip=True)` returns for that `td`.
* `load_cmp_list` — the input-file loader, over already CSV-parsed rows
  (Python's `csv.reader` yields `[]` for a blank line).
* `save_doctor` — the persistence upsert, over an explicit relational state.
* `scrapeOne` — the per-identifier retry loop of `scrape_cmp_numbers`,
  modelled as an event trace; the effectful lookup workflow
  (`fetch_detail_html` + `extract_details`) is abstracted as an oracle
  giving each attempt's outcome (`none` = raised exception,
  `some (status, specialties)` = extracted data).
* `mainExitCode` / `clampRetries` — the exit-code and retry-clamp logic of
  `main`.

Character-level caveat: Python's `str.upper()` / `str.strip()` are full
Unicode; the embedding covers ASCII plus the Spanish accented letters that
the source's diacritic-translation table mentions, which is the repertoire
the program's logic actually distinguishes.
-/

namespace CmpScraper

/-- `beginsWith needle hay` — `hay` starts with `needle` (character lists). -/
def beginsWith : List Char → List Char → Bool
  | [], _ => true
  | _ :: _, [] => false
  | a :: as, b :: bs => a == b && beginsWith as bs

/-- `hasChunk needle hay` — `needle` occurs contiguously inside `hay`;
mirrors Python's `needle in hay` on strings. -/
def hasChunk (needle : List Char) : List Char → Bool
  | [] => needle.isEmpty
  | b :: bs => beginsWith needle (b :: bs) || hasChunk needle bs

/-- Python `needle in hay` for strings. -/
def strContainsSub (hay needle : String) : Bool :=
  hasChunk needle.data hay.data

/-- Python `str.upper()` on the repertoire the scraper distinguishes:
ASCII letters plus the accented Spanish lowercase letters whose uppercase
forms appear in the source's `normalize` translation table. -/
def upperChar : Char → Char
  | 'á' => 'Á' | 'à' => 'À' | 'â' => 'Â' | 'ä' => 'Ä' | 'ã' => 'Ã'
  | 'é' => 'É' | 'è' => 'È' | 'ê' => 'Ê' | 'ë' => 'Ë'
  | 'í' => 'Í' | 'ì' => 'Ì' | 'ï' => 'Ï' | 'î' => 'Î'
  | 'ó' => 'Ó' | 'ò' => 'Ò' | 'ö' => 'Ö' | 'ô' => 'Ô' | 'õ' => 'Õ'
  | 'ú' => 'Ú' | 'ù' => 'Ù' | 'ü' => 'Ü' | 'û' => 'Û'
  | 'ñ' => 'Ñ'
  | c => c.toUpper

/-- Python `text.upper()`. -/
def pyUpper (s : String) : String := ⟨s.data.map upperChar⟩

/-- The per-character diacritic translation table built by
`str.maketrans` in `extract_details.normalize` (`src/main.py` lines 183-209). -/
def translateChar : Char → Char
  | 'Á' => 'A' | 'À' => 'A' | 'Â' => 'A' | 'Ä' => 'A' | 'Ã' => 'A'
  | 'É' => 'E' | 'È' => 'E' | 'Ê' => 'E' | 'Ë' => 'E'
  | 'Í' => 'I' | 'Ì' => 'I' | 'Ï' => 'I' | 'Î' => 'I'
  | 'Ó' => 'O' | 'Ò' => 'O' | 'Ö' => 'O' | 'Ô' => 'O' | 'Õ' => 'O'
  | 'Ú' => 'U' | 'Ù' => 'U' | 'Ü' => 'U' | 'Û' => 'U'
  | 'Ñ' => 'N'
  | c => c

/-- Python `str.strip()` with no argument: remove leading and trailing
whitespace. -/
def pyStrip (s : String) : String :=
  ⟨((s.data.dropWhile Char.isWhitespace).reverse.dropWhile Char.isWhitespace).reverse⟩

/-- `normalize` inside `extract_details`:
`text.upper().translate(mapping).strip()` (`src/main.py` line 210). -/
def normalize (text : String) : String :=
  pyStrip ⟨(pyUpper text).data.map translateChar⟩

/-- The fixed status vocabulary `status_values` (`src/main.py` lines 212-224).
Python uses a `set`; only membership is ever tested, so a list is faithful. -/
def status_values : List String :=
  ["HABIL", "INHABIL", "NO HABIL", "NOHABIL", "SUSPENDIDO", "SUSPENSION",
   "FALLECIDO", "INACTIVO", "BAJA", "RETIRADO", "CANCELADO"]

/-- A table row: the `get_text(strip=True)` texts of its `td` cells. -/
abbrev HtmlRow := List String

/-- A table: its `tr` rows. -/
abbrev HtmlTable := List HtmlRow

/-- `tr.get_text(strip=True)`: the concatenation of the row's stripped cell
texts (the model carries no text outside `td` elements). -/
def rowText (r : HtmlRow) : String := String.join r

/-- The status-shape-and-vocabulary test of `extract_details`
(`src/main.py` lines 230-238): a one-row table whose row has exactly one
`td`, or a two-row table whose second row has exactly one `td`; the row's
text is accepted only if its normalization is in `status_values`. -/
def tryStatus : HtmlTable → Option String
  | [r] =>
      if r.length = 1 then
        let cellText := rowText r
        if status_values.contains (normalize cellText) then some cellText else none
      else none
  | [_, r1] =>
      if r1.length = 1 then
        let cellText := rowText r1
        if status_values.contains (normalize cellText) then some cellText else none
      else none
  | _ => none

/-- The specialties-header test (`src/main.py` lines 240-241): some header
cell, uppercased, contains the substring `"REGISTRO"`. -/
def headerHasRegistro (r0 : HtmlRow) : Bool :=
  r0.any (fun c => strContainsSub (pyUpper c) "REGISTRO")

/-- The specialty harvest from the non-header rows (`src/main.py` lines
242-247): each row's first cell, skipping rows with no cells and empty
first cells. -/
def specsFrom (rest : List HtmlRow) : List String :=
  rest.filterMap (fun row =>
    match row with
    | [] => none
    | c :: _ => if c == "" then none else some c)

/-- The `for table in soup.find_all("table")` loop of `extract_details`
(`src/main.py` lines 225-247), threading the `status` and `specialties`
accumulators; a table with no rows is skipped (`continue`). -/
def extractLoop : String → List String → List HtmlTable → String × List String
  | status, specs, [] => (status, specs)
  | status, specs, t :: ts =>
      match t with
      | [] => extractLoop status specs ts
      | r0 :: rest =>
          let status' := if status == "" then (tryStatus (r0 :: rest)).getD status else status
          let specs' := if headerHasRegistro r0 then specs ++ specsFrom rest else specs
          extractLoop status' specs' ts

/-- `extract_details` (`src/main.py` lines 177-248): scan every table,
return the status (first match wins, else `""`) and the concatenated
specialty names. -/
def extract_details (tables : List HtmlTable) : String × List String :=
  extractLoop "" [] tables

/-- Per-table specialty contribution, used to characterise the specialty
component of `extract_details`. -/
def tableSpecs : HtmlTable → List String
  | [] => []
  | r0 :: rest => if headerHasRegistro r0 then specsFrom rest else []

/-- Concatenation of the per-table specialty contributions in document
order. -/
def specsConcat : List HtmlTable → List String
  | [] => []
  | t :: ts => tableSpecs t ++ specsConcat ts

/-- The cell text of the first table that passes the status shape-and-
vocabulary test, `""` if none does; characterises the status component of
`extract_details`. -/
def firstStatus : List HtmlTable → String
  | [] => ""
  | t :: ts =>
      match tryStatus t with
      | some c => c
      | none => firstStatus ts

/-- One iteration of the `for row in reader` loop of `load_cmp_list`
(`src/main.py` lines 73-78): skip an empty row (`if not row: continue`),
strip the first field, and append it unless blank. -/
def loadStep (acc : List String) (row : List String) : List String :=
  match row with
  | [] => acc
  | c :: _ =>
      let s := pyStrip c
      if s == "" then acc else acc ++ [s]

/-- `load_cmp_list` (`src/main.py` lines 69-79), over the rows produced by
`csv.reader` (a blank input line yields the empty row `[]`): keep each row's
first field stripped, skipping empty rows and blank first fields. -/
def load_cmp_list (rows : List (List String)) : List String :=
  rows.foldl loadStep []

/-- The spec's words for the loader ("one token per leading field of each
line ...; blank lines and blank tokens are skipped"), to be compared with
`load_cmp_list`. -/
def load_cmp_list_spec (rows : List (List String)) : List String :=
  rows.filterMap (fun row =>
    match row with
    | [] => none
    | c :: _ => if pyStrip c == "" then none else some (pyStrip c))

/-- Relational state of the persistence layer: the `doctors` table
(cmp, status) keyed on `cmp`, and the `doctor_specialties` table
(cmp, name) unique on the pair (`src/main.py` lines 126-151; the
autoincrement surrogate id plays no role in any observable behaviour). -/
structure Db where
  doctors : List (String × String)
  specialties : List (String × String)

/-- The `INSERT ... ON DUPLICATE KEY UPDATE status = VALUES(status)` on
`doctors` (`src/main.py` lines 158-165): update the status of the row keyed
`cmp` if present, else append a new row. -/
def upsertDoctor (rows : List (String × String)) (cmp status : String) :
    List (String × String) :=
  if rows.any (fun p => p.1 == cmp) then
    rows.map (fun p => if p.1 == cmp then (p.1, status) else p)
  else
    rows ++ [(cmp, status)]

/-- The `INSERT IGNORE INTO doctor_specialties` (`src/main.py` lines
166-173): append (cmp, name) unless the pair is already present. -/
def insertIgnoreSpecialty (rows : List (String × String)) (cmp name : String) :
    List (String × String) :=
  if rows.any (fun p => p.1 == cmp && p.2 == name) then rows
  else rows ++ [(cmp, name)]

/-- `save_doctor` (`src/main.py` lines 154-174): upsert the doctor row,
then insert-ignore each specialty in order. -/
def save_doctor (db : Db) (cmp status : String) (specialties : List String) : Db :=
  { doctors := upsertDoctor db.doctors cmp status
    specialties :=
      specialties.foldl (fun rows s => insertIgnoreSpecialty rows cmp s) db.specialties }

/-- Observable events of one identifier's processing in
`scrape_cmp_numbers` (`src/main.py` lines 398-434), in program order:
page open/close, `dump_debug`, `append_error_log`, `save_doctor`,
`append_failed_cmp`, and the `successes`/`failures` counter increments. -/
inductive Event where
  | pageOpen : Event
  | pageClose : Event
  | debugDump : String → String → Event
  | errLog : String → Event
  | saveDoc : String → String → List String → Event
  | ledger : String → Event
  | successTick : Event
  | failTick : Event

/-- One attempt's outcome of the lookup workflow
(`fetch_detail_html` + `extract_details`): `none` models a raised
exception, `some (status, specialties)` models extracted data (an empty
status is turned into a failure by the caller, line 410-412). -/
abbrev AttemptOutcome := Option (String × List String)

/-- An attempt fails when the workflow raises or the extracted status is
empty. -/
def attemptFails : AttemptOutcome → Bool
  | none => true
  | some (status, _) => status == ""

/-- The body of one attempt of the retry loop (`src/main.py` lines
403-432), from after `page = await context.new_page()` to before the
`finally` block: the events it emits and whether `success` was set.
On success: `save_doctor` then `successes += 1`.  On an empty status:
`dump_debug missing_status`, then the raised error is handled like any
workflow exception: `dump_debug error`, `append_error_log`, and — when
this was the last allowed attempt (`attempt > retries`) —
`append_failed_cmp` and `failures += 1`. -/
def attemptBody (oracle : Nat → AttemptOutcome) (retries : Int) (cmp : String)
    (attempt : Nat) : List Event × Bool :=
  match oracle attempt with
  | some (status, specialties) =>
      if status == "" then
        ((Event.debugDump cmp "missing_status" ::
          Event.debugDump cmp "error" :: Event.errLog cmp ::
          (if (attempt : Int) > retries then [Event.ledger cmp, Event.failTick] else [])),
         false)
      else
        ([Event.saveDoc cmp status specialties, Event.successTick], true)
  | none =>
      ((Event.debugDump cmp "error" :: Event.errLog cmp ::
        (if (attempt : Int) > retries then [Event.ledger cmp, Event.failTick] else [])),
       false)

/-- The `while attempt <= retries and not success` loop (`src/main.py`
lines 399-434).  Each iteration increments `attempt`, opens a page, runs
the attempt body, and — via the `finally` block — closes the page on every
exit path before the iteration ends.  The loop runs for post-increment
attempt values `a + 1 .. a + fuel`; see `scrapeOne` for the initial fuel. -/
def retryGo (oracle : Nat → AttemptOutcome) (retries : Int) (cmp : String) :
    Nat → Nat → List Event
  | 0, _ => []
  | fuel + 1, a =>
      let attempt := a + 1
      let body := attemptBody oracle retries cmp attempt
      let block := Event.pageOpen :: body.1 ++ [Event.pageClose]
      if body.2 then block else block ++ retryGo oracle retries cmp fuel attempt

/-- The event trace of one identifier's processing: the loop condition
`attempt <= retries` is tested against the pre-increment value
`0 .. retries`, so at most `max 0 (retries + 1)` iterations occur. -/
def scrapeOne (oracle : Nat → AttemptOutcome) (retries : Int) (cmp : String) :
    List Event :=
  retryGo oracle retries cmp (retries + 1).toNat 0

/-- Event classifiers used to count attempts, persisted records, ledger
appends and the run-level counters. -/
def isOpenEv : Event → Bool
  | Event.pageOpen => true
  | _ => false

def isCloseEv : Event → Bool
  | Event.pageClose => true
  | _ => false

def isPageEv : Event → Bool
  | Event.pageOpen => true
  | Event.pageClose => true
  | _ => false

def isSaveEv : Event → Bool
  | Event.saveDoc _ _ _ => true
  | _ => false

def isLedgerEv : Event → Bool
  | Event.ledger _ => true
  | _ => false

def isFailTickEv : Event → Bool
  | Event.failTick => true
  | _ => false

def isSuccessTickEv : Event → Bool
  | Event.successTick => true
  | _ => false

/-- `pageDepthOk d tr` holds when, starting from `d` open pages, the trace
never opens a page while one is open, never closes a page that is not
open, and ends with no page open. -/
def pageDepthOk : Nat → List Event → Bool
  | d, [] => d == 0
  | d, Event.pageOpen :: rest => d == 0 && pageDepthOk (d + 1) rest
  | d, Event.pageClose :: rest => d == 1 && pageDepthOk (d - 1) rest
  | d, _ :: rest => pageDepthOk d rest

/-- The retry-count clamp `retries=max(0, args.retries)` applied by `main`
when invoking `scrape_cmp_numbers` (`src/main.py` line 506). -/
def clampRetries (r : Int) : Int := max 0 r

/-- The exit-code logic of `main` (`src/main.py` lines 487-518):
`sys.exit(1)` when the loaded identifier list is empty; otherwise run the
scraping loop, whose result is `Except.error` when a fatal error escapes it
(then `sys.exit(1)` after the alert email) and `Except.ok (successes,
failures)` when it completes (then the implicit exit code 0). -/
def mainExitCode (rows : List (List String))
    (runResult : Except String (Nat × Nat)) : Nat :=
  if load_cmp_list rows == [] then 1
  else
    match runResult with
    | Except.error _ => 1
    | Except.ok _ => 0

/-! ### Extractor lemmas -/

theorem tryStatus_contains {t : HtmlTable} {c : String} (h : tryStatus t = some c) :
    status_values.contains (normalize c) = true := by
  match t with
  | [] => simp [tryStatus] at h
  | [r] =>
      simp only [tryStatus] at h
      split at h
      · split at h
        next hc => exact Option.some.inj h ▸ hc
        next => exact absurd h (by simp)
      · exact absurd h (by simp)
  | [r0, r1] =>
      simp only [tryStatus] at h
      split at h
      · split at h
        next hc => exact Option.some.inj h ▸ hc
        next => exact absurd h (by simp)
      · exact absurd h (by simp)
  | _ :: _ :: _ :: _ => simp [tryStatus] at h

theorem tryStatus_ne_empty {t : HtmlTable} {c : String} (h : tryStatus t = some c) :
    c ≠ "" := by
  intro hc
  have hm := tryStatus_contains h
  rw [hc] at hm
  exact absurd hm (by decide)

theorem extractLoop_fst_of_ne (ts : List HtmlTable) (status : String)
    (h : status ≠ "") : ∀ specs, (extractLoop status specs ts).1 = status := by
  induction ts with
  | nil => intro specs; rfl
  | cons t ts ih =>
      intro specs
      have hb : (status == "") = false := by
        simpa using h
      cases t with
      | nil =>
          simpa [extractLoop] using ih specs
      | cons r0 rest =>
          simp only [extractLoop, hb, Bool.false_eq_true, if_false]
          exact ih _

theorem extractLoop_fst_unset (ts : List HtmlTable) :
    ∀ specs, (extractLoop "" specs ts).1 = firstStatus ts := by
  induction ts with
  | nil => intro specs; rfl
  | cons t ts ih =>
      intro specs
      cases t with
      | nil =>
          have : tryStatus ([] : HtmlTable) = none := rfl
          simpa [extractLoop, firstStatus, this] using ih specs
      | cons r0 rest =>
          cases htr : tryStatus (r0 :: rest) with
          | some c =>
              have hc := tryStatus_ne_empty htr
              simp only [extractLoop, htr, firstStatus]
              simpa using extractLoop_fst_of_ne ts c hc _
          | none =>
              simp only [extractLoop, htr, firstStatus]
              simpa using ih _

theorem extractLoop_snd (ts : List HtmlTable) :
    ∀ status specs, (extractLoop status specs ts).2 = specs ++ specsConcat ts := by
  induction ts with
  | nil => intro status specs; simp [extractLoop, specsConcat]
  | cons t ts ih =>
      intro status specs
      cases t with
      | nil => simpa [extractLoop, specsConcat, tableSpecs] using ih status specs
      | cons r0 rest =>
          simp only [extractLoop]
          rw [ih]
          cases hh : headerHasRegistro r0 <;>
            simp [tableSpecs, hh, specsConcat, List.append_assoc]

/-! ### Claims about the Extractor -/

/-- Claim C1, counterexample: on the scenario-B markup — a status table with
cell `"HABIL"` and a specialties table with header
`["N° REGISTRO", "ESPECIALIDAD"]` and data row `["001", "CARDIOLOGIA"]` —
`extract_details` does NOT return specialties `["CARDIOLOGIA"]`: the code
takes each data row's first cell, which here is the registration number
`"001"`. -/
theorem extract_details_scenarioB_not_cardiologia :
    extract_details
      [[["HABIL"]], [["N° REGISTRO", "ESPECIALIDAD"], ["001", "CARDIOLOGIA"]]]
      ≠ ("HABIL", ["CARDIOLOGIA"]) := by decide

/-- Claim C1, amended: on the scenario-B markup, `extract_details` returns
status `"HABIL"` and specialties `["001"]` — the data row's first cell. -/
theorem extract_details_scenarioB :
    extract_details
      [[["HABIL"]], [["N° REGISTRO", "ESPECIALIDAD"], ["001", "CARDIOLOGIA"]]]
      = ("HABIL", ["001"]) := by decide

/-- Claim C2: the specialties returned by `extract_details` are exactly the
concatenation, over the document's tables in order, of each table's
contribution: nothing when the table's header row has no cell whose
uppercasing contains `"REGISTRO"`, and otherwise every subsequent row's
first cell in order, skipping rows with no cells or an empty first cell;
duplicates are kept. -/
theorem extract_details_specialties (tables : List HtmlTable) :
    (extract_details tables).2 = specsConcat tables :=
  extractLoop_snd tables "" []

/-- Claim C3: the status returned by `extract_details` is the (exact,
non-normalized) cell text of the first table in document order that has
exactly one row with one cell — or exactly two rows whose second has one
cell — and whose normalized text is in the fixed status vocabulary; tables
failing the shape test or the vocabulary test are passed over, and once a
table matches no later table is consulted (`""` when none matches). -/
theorem extract_details_status (tables : List HtmlTable) :
    (extract_details tables).1 = firstStatus tables :=
  extractLoop_fst_unset tables []

/-! ### Loader and exit-code claims -/

theorem load_foldl_spec (rows : List (List String)) :
    ∀ acc, rows.foldl loadStep acc = acc ++ load_cmp_list_spec rows := by
  induction rows with
  | nil => intro acc; simp [load_cmp_list_spec]
  | cons row rows ih =>
      intro acc
      cases row with
      | nil => simpa [loadStep, load_cmp_list_spec] using ih acc
      | cons c rest =>
          simp only [List.foldl_cons, loadStep, load_cmp_list_spec, List.filterMap_cons]
          cases hs : (pyStrip c == "") <;>
            simp [hs, ih, load_cmp_list_spec, List.append_assoc]

/-- Claim C7: `load_cmp_list` keeps, for every CSV row, the first field stripped
of surrounding whitespace, skipping empty rows and rows whose stripped
first field is blank (this is `load_cmp_list_spec`, the spec's wording);
in particular the input whose lines hold `"12345"`, a blank line, and
`"67890"` yields exactly `["12345", "67890"]`. -/
theorem load_cmp_list_correct :
    (∀ rows, load_cmp_list rows = load_cmp_list_spec rows) ∧
    load_cmp_list [["12345"], [], ["67890"]] = ["12345", "67890"] := by
  constructor
  · intro rows
    simpa [load_cmp_list] using load_foldl_spec rows []
  · decide

/-- Claim C8: the process exit code of `main` is non-zero exactly when the input
file yields no identifiers or a fatal run-level error escapes the scraping
loop; a completed run exits 0 whatever its success/failure counts (provided
identifiers were loaded). -/
theorem main_exit_code_correct (rows : List (List String))
    (res : Except String (Nat × Nat)) :
    (mainExitCode rows res ≠ 0 ↔
      (load_cmp_list rows = [] ∨ ∃ e, res = Except.error e)) ∧
    (∀ s f, mainExitCode rows (Except.ok (s, f)) =
      if load_cmp_list rows = [] then 1 else 0) := by
  constructor
  · constructor
    · intro hne
      by_cases h : load_cmp_list rows = []
      · exact Or.inl h
      · cases res with
        | error e => exact Or.inr ⟨e, rfl⟩
        | ok x => exact absurd (by simp [mainExitCode, h]) hne
    · intro hor
      rcases hor with h | ⟨e, he⟩
      · simp [mainExitCode, h]
      · subst he
        by_cases h : load_cmp_list rows = [] <;> simp [mainExitCode, h]
  · intro s f
    by_cases h : load_cmp_list rows = [] <;> simp [mainExitCode, h]

/-! ### Retry-loop lemmas -/

theorem attemptBody_fail_counts (oracle : Nat → AttemptOutcome) (retries : Int)
    (cmp : String) (attempt : Nat) (h : attemptFails (oracle attempt) = true) :
    (attemptBody oracle retries cmp attempt).2 = false ∧
    (attemptBody oracle retries cmp attempt).1.countP isOpenEv = 0 ∧
    (attemptBody oracle retries cmp attempt).1.countP isSaveEv = 0 ∧
    (attemptBody oracle retries cmp attempt).1.countP isSuccessTickEv = 0 ∧
    (attemptBody oracle retries cmp attempt).1.countP isLedgerEv
      = (if (attempt : Int) > retries then 1 else 0) ∧
    (attemptBody oracle retries cmp attempt).1.countP isFailTickEv
      = (if (attempt : Int) > retries then 1 else 0) := by
  cases ho : oracle attempt with
  | none =>
      by_cases hgt : (attempt : Int) > retries <;>
        simp [attemptBody, ho, hgt, List.countP_cons, List.countP_append,
          isOpenEv, isSaveEv, isSuccessTickEv, isLedgerEv, isFailTickEv]
  | some p =>
      obtain ⟨s, sp⟩ := p
      have hs : (s == "") = true := by simpa [attemptFails, ho] using h
      by_cases hgt : (attempt : Int) > retries <;>
        simp [attemptBody, ho, hs, hgt, List.countP_cons, List.countP_append,
          isOpenEv, isSaveEv, isSuccessTickEv, isLedgerEv, isFailTickEv]

theorem retryGo_allFail (oracle : Nat → AttemptOutcome) (retries : Int) (cmp : String)
    (hf : ∀ n, attemptFails (oracle n) = true) :
    ∀ (fuel a : Nat), ((a : Int) + (fuel : Int) = retries + 1) →
      (retryGo oracle retries cmp fuel a).countP isOpenEv = fuel ∧
      (retryGo oracle retries cmp fuel a).countP isSaveEv = 0 ∧
      (retryGo oracle retries cmp fuel a).countP isSuccessTickEv = 0 ∧
      (retryGo oracle retries cmp fuel a).countP isLedgerEv
        = (if fuel = 0 then 0 else 1) ∧
      (retryGo oracle retries cmp fuel a).countP isFailTickEv
        = (if fuel = 0 then 0 else 1) := by
  intro fuel
  induction fuel with
  | zero => intro a ha; simp [retryGo]
  | succ f ih =>
      intro a ha
      obtain ⟨hb2, hopen, hsave, hsucc, hled, hfail⟩ :=
        attemptBody_fail_counts oracle retries cmp (a + 1) (hf (a + 1))
      have hcond : (((a + 1 : Nat) : Int) > retries) ↔ f = 0 := by
        push_cast at ha ⊢
        omega
      by_cases hf0 : f = 0
      · subst hf0
        have hgt : ((a + 1 : Nat) : Int) > retries := hcond.mpr rfl
        rw [if_pos hgt] at hled hfail
        simp [retryGo, hb2, List.countP_cons, List.countP_append,
          isOpenEv, isSaveEv, isSuccessTickEv, isLedgerEv, isFailTickEv,
          hopen, hsave, hsucc, hled, hfail]
      · have hgt : ¬(((a + 1 : Nat) : Int) > retries) := fun hc => hf0 (hcond.mp hc)
        rw [if_neg hgt] at hled hfail
        have ha' : ((a + 1 : Nat) : Int) + (f : Int) = retries + 1 := by
          push_cast at ha ⊢
          omega
        obtain ⟨iho, ihs, ihst, ihl, ihf⟩ := ih (a + 1) ha'
        simp [retryGo, hb2, List.countP_cons, List.countP_append,
          isOpenEv, isSaveEv, isSuccessTickEv, isLedgerEv, isFailTickEv,
          hopen, hsave, hsucc, hled, hfail, iho, ihs, ihst, ihl, ihf, hf0]

/-! ### Claims about the Retry Controller -/

/-- Claim C4: when every attempt of the workflow fails (raises, or yields an
empty status) and the retry bound `R` is nonnegative, the loop makes
exactly `R + 1` attempts (one page opened per attempt), appends the
identifier to the failure ledger exactly once, performs no `save_doctor`
call, and increments the run-level failure counter exactly once. -/
theorem scrape_all_attempts_fail (oracle : Nat → AttemptOutcome) (retries : Int)
    (cmp : String) (h0 : 0 ≤ retries)
    (hf : ∀ n, attemptFails (oracle n) = true) :
    (((scrapeOne oracle retries cmp).countP isOpenEv : Int) = retries + 1) ∧
    (scrapeOne oracle retries cmp).countP isLedgerEv = 1 ∧
    (scrapeOne oracle retries cmp).countP isSaveEv = 0 ∧
    (scrapeOne oracle retries cmp).countP isFailTickEv = 1 := by
  have htn : (((retries + 1).toNat : Int)) = retries + 1 :=
    Int.toNat_of_nonneg (by omega)
  have hinv : ((0 : Nat) : Int) + (((retries + 1).toNat : Nat) : Int) = retries + 1 := by
    rw [htn]
    simp
  obtain ⟨ho, hs, hst, hl, hfl⟩ :=
    retryGo_allFail oracle retries cmp hf ((retries + 1).toNat) 0 hinv
  have hne : (retries + 1).toNat ≠ 0 := by omega
  rw [if_neg hne] at hl hfl
  exact ⟨by rw [scrapeOne, ho, htn], by rw [scrapeOne]; exact hl,
    by rw [scrapeOne]; exact hs, by rw [scrapeOne]; exact hfl⟩

/-- Claim C4 witness: an always-raising workflow with `R = 2` makes 3 attempts,
ledgers the identifier once, saves nothing, and counts one failure. -/
theorem scrape_all_attempts_fail_witness :
    (((scrapeOne (fun _ => none) 2 "12345").countP isOpenEv : Int) = 2 + 1) ∧
    (scrapeOne (fun _ => none) 2 "12345").countP isLedgerEv = 1 ∧
    (scrapeOne (fun _ => none) 2 "12345").countP isSaveEv = 0 ∧
    (scrapeOne (fun _ => none) 2 "12345").countP isFailTickEv = 1 :=
  scrape_all_attempts_fail (fun _ => none) 2 "12345" (by decide) (fun _ => rfl)

/-- Claim C5: if attempt 1 fails, attempt 2 yields a non-empty status, and the
retry bound allows a second attempt (`1 ≤ R`), then exactly 2 attempts
occur, the record is persisted exactly once, the identifier never reaches
the failure ledger, and the run-level success counter is incremented
once. -/
theorem scrape_fail_then_succeed (oracle : Nat → AttemptOutcome) (retries : Int)
    (cmp st : String) (sp : List String) (hr : 1 ≤ retries)
    (h1 : attemptFails (oracle 1) = true)
    (h2 : oracle 2 = some (st, sp)) (hst : st ≠ "") :
    (scrapeOne oracle retries cmp).countP isOpenEv = 2 ∧
    (scrapeOne oracle retries cmp).countP isSaveEv = 1 ∧
    (scrapeOne oracle retries cmp).countP isLedgerEv = 0 ∧
    (scrapeOne oracle retries cmp).countP isSuccessTickEv = 1 := by
  obtain ⟨f, hfeq⟩ : ∃ f, (retries + 1).toNat = f + 2 :=
    ⟨(retries + 1).toNat - 2, by omega⟩
  obtain ⟨hb2, hopen, hsave, hsucc, hled, hfail⟩ :=
    attemptBody_fail_counts oracle retries cmp 1 h1
  have hgt1 : ¬((1 : Int) > retries) := by omega
  have h1' : ((0 + 1 : Nat) : Int) = (1 : Int) := by norm_num
  rw [if_neg (h1' ▸ hgt1)] at hled hfail
  have hbs : (st == "") = false := by simpa using hst
  have hbody2 : attemptBody oracle retries cmp 2
      = ([Event.saveDoc cmp st sp, Event.successTick], true) := by
    simp [attemptBody, h2, hbs]
  have htrace : scrapeOne oracle retries cmp
      = Event.pageOpen :: (attemptBody oracle retries cmp 1).1 ++ [Event.pageClose]
        ++ [Event.pageOpen, Event.saveDoc cmp st sp, Event.successTick,
            Event.pageClose] := by
    simp [scrapeOne, hfeq, retryGo, hb2, hbody2]
  rw [htrace]
  simp [List.countP_cons, List.countP_append, isOpenEv, isSaveEv,
    isLedgerEv, isSuccessTickEv, hopen, hsave, hsucc, hled]

/-- Claim C5 witness: a workflow raising on attempt 1 and extracting
`("HABIL", ["001"])` on attempt 2, with `R = 1`. -/
theorem scrape_fail_then_succeed_witness :
    (scrapeOne (fun n => if n == 1 then none else some ("HABIL", ["001"])) 1 "12345").countP
        isOpenEv = 2 ∧
    (scrapeOne (fun n => if n == 1 then none else some ("HABIL", ["001"])) 1 "12345").countP
        isSaveEv = 1 ∧
    (scrapeOne (fun n => if n == 1 then none else some ("HABIL", ["001"])) 1 "12345").countP
        isLedgerEv = 0 ∧
    (scrapeOne (fun n => if n == 1 then none else some ("HABIL", ["001"])) 1 "12345").countP
        isSuccessTickEv = 1 :=
  scrape_fail_then_succeed (fun n => if n == 1 then none else some ("HABIL", ["001"]))
    1 "12345" "HABIL" ["001"] (by decide) rfl rfl (by decide)

/-! ### Page-scoping and retry-clamp lemmas -/

theorem attemptBody_noPage (oracle : Nat → AttemptOutcome) (retries : Int)
    (cmp : String) (attempt : Nat) :
    ∀ e ∈ (attemptBody oracle retries cmp attempt).1, isPageEv e = false := by
  intro e he
  cases ho : oracle attempt with
  | none =>
      by_cases hgt : (attempt : Int) > retries <;>
        simp [attemptBody, ho, hgt] at he <;>
          rcases he with rfl | rfl | rfl | rfl <;> rfl
  | some p =>
      obtain ⟨s, sp⟩ := p
      cases hs : (s == "") <;>
        by_cases hgt : (attempt : Int) > retries <;>
          simp [attemptBody, ho, hs, hgt] at he <;>
            rcases he with rfl | rfl | rfl | rfl | rfl <;> rfl

theorem pageDepthOk_skip (l : List Event) (hl : ∀ e ∈ l, isPageEv e = false) :
    ∀ (d : Nat) (rest : List Event), pageDepthOk d (l ++ rest) = pageDepthOk d rest := by
  induction l with
  | nil => simp
  | cons e l ih =>
      intro d rest
      have he : isPageEv e = false := hl e (by simp)
      have hl' : ∀ x ∈ l, isPageEv x = false := fun x hx => hl x (by simp [hx])
      cases e with
      | pageOpen => simp [isPageEv] at he
      | pageClose => simp [isPageEv] at he
      | debugDump a b => simpa [pageDepthOk] using ih hl' d rest
      | errLog a => simpa [pageDepthOk] using ih hl' d rest
      | saveDoc a b c => simpa [pageDepthOk] using ih hl' d rest
      | ledger a => simpa [pageDepthOk] using ih hl' d rest
      | successTick => simpa [pageDepthOk] using ih hl' d rest
      | failTick => simpa [pageDepthOk] using ih hl' d rest

theorem retryGo_pageDepth (oracle : Nat → AttemptOutcome) (retries : Int)
    (cmp : String) :
    ∀ (fuel a : Nat), pageDepthOk 0 (retryGo oracle retries cmp fuel a) = true := by
  intro fuel
  induction fuel with
  | zero => intro a; rfl
  | succ f ih =>
      intro a
      have hnp := attemptBody_noPage oracle retries cmp (a + 1)
      have hskip := pageDepthOk_skip _ hnp
      cases hb : (attemptBody oracle retries cmp (a + 1)).2 with
      | true =>
          simp [retryGo, hb, pageDepthOk, List.cons_append, List.append_assoc, hskip]
      | false =>
          simp [retryGo, hb, pageDepthOk, List.cons_append, List.append_assoc, hskip,
            ih (a + 1)]

theorem retryGo_opens_pos (oracle : Nat → AttemptOutcome) (retries : Int)
    (cmp : String) (f a : Nat) :
    1 ≤ (retryGo oracle retries cmp (f + 1) a).countP isOpenEv := by
  cases hb : (attemptBody oracle retries cmp (a + 1)).2 <;>
    simp [retryGo, hb, List.countP_cons, List.countP_append, isOpenEv]

/-! ### Claims about page scoping and the retry clamp -/

/-- Claim C9: in every per-identifier trace, each attempt's page is opened at the
attempt's start and closed before the attempt ends on every exit path
(success, workflow exception, or empty-status failure): starting from zero
open pages, the trace never opens a page while one is open, never closes a
page that is not open, and ends with no page open. -/
theorem scrape_page_scoped (oracle : Nat → AttemptOutcome) (retries : Int)
    (cmp : String) :
    pageDepthOk 0 (scrapeOne oracle retries cmp) = true :=
  retryGo_pageDepth oracle retries cmp ((retries + 1).toNat) 0

/-- Claim C10: `main` passes `max(0, args.retries)` to the scraping loop
(`clampRetries`), which is nonnegative for every integer flag value, and
with a clamped retry count every identifier is attempted at least once
(at least one page open appears in its trace). -/
theorem clamp_retries_at_least_one_attempt (r : Int)
    (oracle : Nat → AttemptOutcome) (cmp : String) :
    clampRetries r = max 0 r ∧ 0 ≤ clampRetries r ∧
    1 ≤ (scrapeOne oracle (clampRetries r) cmp).countP isOpenEv := by
  have h0 : 0 ≤ clampRetries r := le_max_left 0 r
  refine ⟨rfl, h0, ?_⟩
  obtain ⟨f, hfeq⟩ : ∃ f, (clampRetries r + 1).toNat = f + 1 :=
    ⟨(clampRetries r + 1).toNat - 1, by omega⟩
  rw [scrapeOne, hfeq]
  exact retryGo_opens_pos oracle (clampRetries r) cmp f 0

/-! ### Persistence lemmas -/

theorem countP_upsert_map (rows : List (String × String)) (cmp st : String) :
    (rows.map (fun p => if p.1 == cmp then (p.1, st) else p)).countP
        (fun p => p.1 == cmp)
      = rows.countP (fun p => p.1 == cmp) := by
  induction rows with
  | nil => rfl
  | cons q rows ih =>
      simp only [List.map_cons, List.countP_cons, ih]
      by_cases hq : (q.1 == cmp) = true <;> simp [hq]

theorem upsertDoctor_count (rows : List (String × String)) (cmp st : String)
    (h : rows.countP (fun p => p.1 == cmp) ≤ 1) :
    (upsertDoctor rows cmp st).countP (fun p => p.1 == cmp) = 1 := by
  by_cases ha : rows.any (fun p => p.1 == cmp) = true
  · have hpos : 0 < rows.countP (fun p => p.1 == cmp) :=
      List.countP_pos_iff.mpr (by simpa using List.any_eq_true.mp ha)
    simp only [upsertDoctor, ha, if_true, countP_upsert_map]
    omega
  · have hz : rows.countP (fun p => p.1 == cmp) = 0 :=
      List.countP_eq_zero.mpr (by
        intro p hp hc
        exact ha (List.any_eq_true.mpr ⟨p, hp, hc⟩))
    simp [upsertDoctor, ha, List.countP_append, List.countP_cons, hz]

theorem upsertDoctor_status (rows : List (String × String)) (cmp st : String) :
    ∀ p ∈ upsertDoctor rows cmp st, p.1 = cmp → p.2 = st := by
  intro p hp hkey
  by_cases ha : rows.any (fun p => p.1 == cmp) = true
  · simp only [upsertDoctor, ha, if_true] at hp
    obtain ⟨q, hq, rfl⟩ := List.mem_map.mp hp
    by_cases hq1 : (q.1 == cmp) = true
    · simp [hq1]
    · simp only [hq1, Bool.false_eq_true, if_false] at hkey ⊢
      exact absurd (by simpa using hkey) hq1
  · simp only [upsertDoctor, ha, Bool.false_eq_true, if_false] at hp
    rcases List.mem_append.mp hp with hmem | hmem
    · exact absurd (List.any_eq_true.mpr ⟨p, hmem, by simpa using hkey⟩) ha
    · simp only [List.mem_singleton] at hmem
      rw [hmem]

theorem insertIgnore_le_one (rows : List (String × String)) (cmp name s : String)
    (h : rows.countP (fun p => p.1 == cmp && p.2 == name) ≤ 1) :
    (insertIgnoreSpecialty rows cmp s).countP
      (fun p => p.1 == cmp && p.2 == name) ≤ 1 := by
  by_cases hs : s = name
  · subst hs
    by_cases ha : rows.any (fun p => p.1 == cmp && p.2 == s) = true
    · simpa [insertIgnoreSpecialty, ha] using h
    · have hz : rows.countP (fun p => p.1 == cmp && p.2 == s) = 0 :=
        List.countP_eq_zero.mpr (by
          intro p hp hc
          exact ha (List.any_eq_true.mpr ⟨p, hp, hc⟩))
      simp [insertIgnoreSpecialty, ha, List.countP_append, List.countP_cons, hz]
  · by_cases ha : rows.any (fun p => p.1 == cmp && p.2 == s) = true
    · simpa [insertIgnoreSpecialty, ha] using h
    · simpa [insertIgnoreSpecialty, ha, List.countP_append, List.countP_cons, hs]
        using h

theorem insertIgnore_mono (rows : List (String × String)) (cmp name s : String) :
    rows.countP (fun p => p.1 == cmp && p.2 == name)
      ≤ (insertIgnoreSpecialty rows cmp s).countP
          (fun p => p.1 == cmp && p.2 == name) := by
  by_cases ha : rows.any (fun p => p.1 == cmp && p.2 == s) = true <;>
    simp [insertIgnoreSpecialty, ha, List.countP_append]

theorem insertIgnore_present (rows : List (String × String)) (cmp name : String) :
    1 ≤ (insertIgnoreSpecialty rows cmp name).countP
          (fun p => p.1 == cmp && p.2 == name) := by
  by_cases ha : rows.any (fun p => p.1 == cmp && p.2 == name) = true
  · have hpos : 0 < rows.countP (fun p => p.1 == cmp && p.2 == name) :=
      List.countP_pos_iff.mpr (by simpa using List.any_eq_true.mp ha)
    simpa [insertIgnoreSpecialty, ha] using hpos
  · simp [insertIgnoreSpecialty, ha, List.countP_append, List.countP_cons]

theorem insertIgnore_keeps (rows : List (String × String)) (cmp s : String) :
    ∀ p ∈ rows, p ∈ insertIgnoreSpecialty rows cmp s := by
  intro p hp
  by_cases ha : rows.any (fun p => p.1 == cmp && p.2 == s) = true <;>
    simp [insertIgnoreSpecialty, ha, hp]

theorem foldSpec_le_one (cmp name : String) :
    ∀ (l : List String) (rows : List (String × String)),
      rows.countP (fun p => p.1 == cmp && p.2 == name) ≤ 1 →
      (l.foldl (fun rows s => insertIgnoreSpecialty rows cmp s) rows).countP
        (fun p => p.1 == cmp && p.2 == name) ≤ 1 := by
  intro l
  induction l with
  | nil => intro rows h; simpa using h
  | cons s l ih =>
      intro rows h
      exact ih _ (insertIgnore_le_one rows cmp name s h)

theorem foldSpec_mono (cmp name : String) :
    ∀ (l : List String) (rows : List (String × String)),
      rows.countP (fun p => p.1 == cmp && p.2 == name)
        ≤ (l.foldl (fun rows s => insertIgnoreSpecialty rows cmp s) rows).countP
            (fun p => p.1 == cmp && p.2 == name) := by
  intro l
  induction l with
  | nil => intro rows; simp
  | cons s l ih =>
      intro rows
      exact le_trans (insertIgnore_mono rows cmp name s) (ih _)

theorem foldSpec_present (cmp name : String) :
    ∀ (l : List String) (rows : List (String × String)), name ∈ l →
      1 ≤ (l.foldl (fun rows s => insertIgnoreSpecialty rows cmp s) rows).countP
            (fun p => p.1 == cmp && p.2 == name) := by
  intro l
  induction l with
  | nil => intro rows h; simp at h
  | cons s l ih =>
      intro rows hmem
      rcases List.mem_cons.mp hmem with heq | htail
      · subst heq
        exact le_trans (insertIgnore_present rows cmp name) (foldSpec_mono cmp name l _)
      · exact ih _ htail

theorem foldSpec_keeps (cmp : String) :
    ∀ (l : List String) (rows : List (String × String)) (p : String × String),
      p ∈ rows → p ∈ l.foldl (fun rows s => insertIgnoreSpecialty rows cmp s) rows := by
  intro l
  induction l with
  | nil => intro rows p hp; simpa using hp
  | cons s l ih =>
      intro rows p hp
      exact ih _ p (insertIgnore_keeps rows cmp s p hp)

/-! ### Claim about Persistence -/

/-- Claim C6: starting from a state where the doctor key `cmp` and the pair
(`cmp`, `name`) each occupy at most one row (the uniqueness the schema's
PRIMARY KEY / UNIQUE KEY enforce), calling `save_doctor` twice for the
same identifier — `name` among the specialties both times — leaves exactly
one doctor row for `cmp` whose status is the second (latest) value
written, exactly one specialty row for (`cmp`, `name`), and every
previously recorded specialty row still present (insertion is
additive-only: `save_doctor` is the only operation and it never removes a
specialty row). -/
theorem save_doctor_upsert (db : Db) (cmp status status' name : String)
    (specs specs' : List String)
    (hdoc : db.doctors.countP (fun p => p.1 == cmp) ≤ 1)
    (hspec : db.specialties.countP (fun p => p.1 == cmp && p.2 == name) ≤ 1)
    (hn1 : name ∈ specs) (hn2 : name ∈ specs') :
    ((save_doctor (save_doctor db cmp status specs) cmp status' specs').doctors.countP
        (fun p => p.1 == cmp) = 1) ∧
    (∀ p ∈ (save_doctor (save_doctor db cmp status specs) cmp status' specs').doctors,
        p.1 = cmp → p.2 = status') ∧
    ((save_doctor (save_doctor db cmp status specs) cmp status' specs').specialties.countP
        (fun p => p.1 == cmp && p.2 == name) = 1) ∧
    (∀ p ∈ db.specialties,
        p ∈ (save_doctor (save_doctor db cmp status specs) cmp status' specs').specialties) := by
  have hd1 : (upsertDoctor db.doctors cmp status).countP (fun p => p.1 == cmp) = 1 :=
    upsertDoctor_count db.doctors cmp status hdoc
  have hS1le : ((specs.foldl (fun rows s => insertIgnoreSpecialty rows cmp s)
      db.specialties).countP (fun p => p.1 == cmp && p.2 == name)) ≤ 1 :=
    foldSpec_le_one cmp name specs db.specialties hspec
  have hS1ge : 1 ≤ ((specs.foldl (fun rows s => insertIgnoreSpecialty rows cmp s)
      db.specialties).countP (fun p => p.1 == cmp && p.2 == name)) :=
    foldSpec_present cmp name specs db.specialties hn1
  simp only [save_doctor]
  refine ⟨?_, ?_, ?_, ?_⟩
  · exact upsertDoctor_count _ cmp status' (le_of_eq hd1)
  · exact upsertDoctor_status _ cmp status'
  · have hle := foldSpec_le_one cmp name specs' _ hS1le
    have hge := le_trans hS1ge (foldSpec_mono cmp name specs' _)
    omega
  · intro p hp
    exact foldSpec_keeps cmp specs' _ p (foldSpec_keeps cmp specs db.specialties p hp)

/-- Claim C6 witness: saving ("12345", "HABIL", ["CARDIOLOGIA"]) twice into the
empty state. -/
theorem save_doctor_upsert_witness :
    ((save_doctor (save_doctor ⟨[], []⟩ "12345" "HABIL" ["CARDIOLOGIA"]) "12345"
        "HABIL" ["CARDIOLOGIA"]).doctors.countP (fun p => p.1 == "12345") = 1) ∧
    (∀ p ∈ (save_doctor (save_doctor ⟨[], []⟩ "12345" "HABIL" ["CARDIOLOGIA"]) "12345"
        "HABIL" ["CARDIOLOGIA"]).doctors, p.1 = "12345" → p.2 = "HABIL") ∧
    ((save_doctor (save_doctor ⟨[], []⟩ "12345" "HABIL" ["CARDIOLOGIA"]) "12345"
        "HABIL" ["CARDIOLOGIA"]).specialties.countP
          (fun p => p.1 == "12345" && p.2 == "CARDIOLOGIA") = 1) ∧
    (∀ p ∈ (Db.mk [] []).specialties,
        p ∈ (save_doctor (save_doctor ⟨[], []⟩ "12345" "HABIL" ["CARDIOLOGIA"]) "12345"
              "HABIL" ["CARDIOLOGIA"]).specialties) :=
  save_doctor_upsert ⟨[], []⟩ "12345" "HABIL" "HABIL" "CARDIOLOGIA"
    ["CARDIOLOGIA"] ["CARDIOLOGIA"] (by decide) (by decide) (by decide) (by decide)

end CmpScraper
